import Mathlib

/-!
Verification of the multi-provider decision arbitration and replay system.

The development shallowly embeds the Python sources of the repository:

* `EpReplay`  — agent-system/agent_simple_v7_episode_replay.py
  (episode model, JSON-style serialization, online runner, offline replay)
* `EpArb`     — agent-system/agent_simple_v7_episode_arbitration..py
  (state machine `AgentState.apply`, baseline arbitrator)
* `ReplayAB`  — agent-system/agent_simple_v7_replay_ab.py
  (guarded baseline arbitrator, minimal `AgentState.apply`)
* `Clean`     — agent-system/agent_simple_v7_clean.py
  (decision validation layer)

Machine floats (`confidence`) are modelled as rationals; Python `dict`s are
modelled as insertion-ordered association lists (`List (String × _)`), which
is faithful to CPython's ordered dictionaries; exceptions are modelled with
`Except`.
-/

/-! ### Shared helpers -/

/-- Stable insertion of an element into an already sorted list, using a
boolean comparison `le`.  An element is inserted before the first existing
element it compares `le` to, so equal keys keep their original relative
order. -/
def insertSorted (le : α → α → Bool) (x : α) : List α → List α
  | [] => [x]
  | y :: ys => if le x y then x :: y :: ys else y :: insertSorted le x ys

/-- Stable ascending sort by a boolean comparison.  This models Python's
stable `list.sort(key=...)`: ascending in the key order, ties keep the
original order. -/
def insertionSort (le : α → α → Bool) : List α → List α
  | [] => []
  | x :: xs => insertSorted le x (insertionSort le xs)

/-- A Python/JSON style document value; the serialized episode form of
`serialize_episode` / `deserialize_episode` is expressed over it. -/
inductive JValue where
  | str (s : String)
  | rat (q : ℚ)
  | bool (b : Bool)
  | int (n : Int)
  | obj (fields : List (String × JValue))
  | arr (elems : List JValue)

/-- Lookup of a key in an insertion-ordered association list; models
Python's `d[k]` / `d.get(k)` on a dict (keys are unique in every dict the
program builds). -/
def lookupField (fields : List (String × α)) (k : String) : Option α :=
  (fields.find? (fun kv => kv.1 == k)).map Prod.snd

/-- Sequentially map a fallible function over a list, stopping at the first
error; models a Python `for` loop that appends to an accumulator and lets
exceptions propagate. -/
def mapExceptList (f : α → Except ε β) : List α → Except ε (List β)
  | [] => Except.ok []
  | x :: xs =>
    match f x with
    | Except.error e => Except.error e
    | Except.ok y =>
      match mapExceptList f xs with
      | Except.error e => Except.error e
      | Except.ok ys => Except.ok (y :: ys)


/-! ### agent-system/agent_simple_v7_episode_replay.py -/

namespace EpReplay

/-- AgentState of agent_simple_v7_episode_replay.py (decision context). -/
structure AgentState where
  status : String
  user_intent : String
  meeting_time : String
deriving DecidableEq, Repr

/-- AgentState.snapshot returns a deep copy; with value semantics this is
the identity. -/
def AgentState.snapshot (s : AgentState) : AgentState := s

/-- DecisionInput: the world slice visible to providers.  In this file the
observable state maps string keys to string values. -/
structure DecisionInput where
  observable_state : List (String × String)
  allowed_intents : List String
  constraints : List String
deriving DecidableEq, Repr

/-- DecisionProposal: a provider's candidate.  Every `args` dict built by
this file maps string keys to string values. -/
structure DecisionProposal where
  intent : String
  args : List (String × String)
  confidence : ℚ
deriving DecidableEq, Repr

/-- DecisionScore: comparable score vector of a proposal. -/
structure DecisionScore where
  confidence : ℚ
  intent_valid : Bool
  constraint_violation : Int
  provider_priority : Int
deriving DecidableEq, Repr

/-- EpisodeStep: the frozen record of one decision cycle. -/
structure EpisodeStep where
  state_snapshot : AgentState
  decision_input : DecisionInput
  proposals : List (String × DecisionProposal)
  scores : List (String × DecisionScore)
  chosen_intent : String
deriving DecidableEq, Repr

/-- Episode: an ordered sequence of frozen steps. -/
structure Episode where
  steps : List EpisodeStep
deriving DecidableEq, Repr

/-- Priority table of ProposalScorer.score:
`{"rule": 3, "abort": 2, "llm": 1}.get(provider_name, 0)`. -/
def providerPriorityTable : List (String × Int) :=
  [("rule", 3), ("abort", 2), ("llm", 1)]

/-- ProposalScorer.score of agent_simple_v7_episode_replay.py. -/
def ProposalScorer.score (proposal : DecisionProposal)
    (decision_input : DecisionInput) (provider_name : String) : DecisionScore :=
  let intent_valid : Bool := decision_input.allowed_intents.contains proposal.intent
  let constraint_violation : Int :=
    if proposal.intent == "SendRescheduleEmail" &&
        decision_input.constraints.contains "Do not send email without confirmation"
    then 1 else 0
  let provider_priority : Int := (lookupField providerPriorityTable provider_name).getD 0
  ⟨proposal.confidence, intent_valid, constraint_violation, provider_priority⟩

/-- Failure of an arbitrator; `valid[0]` on an empty list raises a Python
IndexError. -/
inductive ArbError where
  | indexError
deriving DecidableEq, Repr

/-- The filter of the baseline arbitrator:
`s.intent_valid and s.constraint_violation == 0`. -/
def validCandidate (x : DecisionProposal × DecisionScore) : Bool :=
  x.2.intent_valid && x.2.constraint_violation == 0

/-- Boolean form of the ascending comparison induced by the baseline sort
key `(-provider_priority, -confidence)`. -/
def baselineLe (a b : DecisionProposal × DecisionScore) : Bool :=
  decide (b.2.provider_priority < a.2.provider_priority) ||
    (a.2.provider_priority == b.2.provider_priority &&
      decide (b.2.confidence ≤ a.2.confidence))

/-- DecisionArbitrator.choose (baseline): filter the valid candidates,
stable-sort them ascending by `(-provider_priority, -confidence)` and
return the first; indexing an empty list fails. -/
def DecisionArbitrator.choose (scored : List (DecisionProposal × DecisionScore)) :
    Except ArbError DecisionProposal :=
  let valid := scored.filter validCandidate
  match (insertionSort baselineLe valid).head? with
  | some x => Except.ok x.1
  | none => Except.error ArbError.indexError

/-- Boolean form of the ascending comparison induced by the sort key
`-confidence` of ConfidenceOnlyArbitrator. -/
def confidenceLe (a b : DecisionProposal × DecisionScore) : Bool :=
  decide (b.2.confidence ≤ a.2.confidence)

/-- ConfidenceOnlyArbitrator.choose sorts its argument list in place by
descending confidence and returns the first element.  The embedding makes
the in-place mutation explicit: it returns the chosen proposal together
with the final content of the caller's list. -/
def ConfidenceOnlyArbitrator.chooseTracked
    (scored : List (DecisionProposal × DecisionScore)) :
    Except ArbError (DecisionProposal × List (DecisionProposal × DecisionScore)) :=
  let sorted := insertionSort confidenceLe scored
  match sorted.head? with
  | some x => Except.ok (x.1, sorted)
  | none => Except.error ArbError.indexError

/-- LLMProvider.propose: the intent is drawn pseudorandomly from
AskForConfirmation / SendRescheduleEmail and the confidence from
uniform(0.4, 0.95); the draw is made an explicit parameter. -/
def LLMProvider.propose (intentAsk : Bool) (conf : ℚ) : DecisionProposal :=
  let intent := if intentAsk then "AskForConfirmation" else "SendRescheduleEmail"
  ⟨intent, [("message", "LLM suggests " ++ intent)], conf⟩

/-- RuleProvider.propose: deterministic conservative proposal. -/
def RuleProvider.propose : DecisionProposal :=
  ⟨"AskForConfirmation", [("message", "Rule: please confirm first")], mkRat 7 10⟩

/-- AbortProvider.propose: deterministic defensive proposal. -/
def AbortProvider.propose : DecisionProposal :=
  ⟨"Abort", [("reason", "User intent unclear")], mkRat 6 10⟩

/-- run_online_episode: run the three providers on the fixed bootstrap
state, score each proposal, record proposals and scores keyed by provider
name, let the arbitrator choose, and freeze everything into a one-step
episode.  The arbitrator is passed as its choose method; the LLM's
pseudorandom draw is passed explicitly. -/
def run_online_episode
    (choose : List (DecisionProposal × DecisionScore) → Except ArbError DecisionProposal)
    (llmAsk : Bool) (llmConf : ℚ) : Except ArbError Episode :=
  let state : AgentState :=
    ⟨"awaiting_user_confirmation", "reschedule_meeting", "2026-01-06 10:00"⟩
  let decision_input : DecisionInput :=
    ⟨[("status", state.status), ("meeting_time", state.meeting_time)],
     ["AskForConfirmation", "SendRescheduleEmail", "Abort"],
     ["Do not send email without confirmation"]⟩
  let providerProposals : List (String × DecisionProposal) :=
    [("llm", LLMProvider.propose llmAsk llmConf),
     ("rule", RuleProvider.propose),
     ("abort", AbortProvider.propose)]
  let proposals := providerProposals
  let scores := providerProposals.map
    (fun np => (np.1, ProposalScorer.score np.2 decision_input np.1))
  let scored_list := providerProposals.map
    (fun np => (np.2, ProposalScorer.score np.2 decision_input np.1))
  (choose scored_list).map (fun chosen =>
    ⟨[⟨state.snapshot, decision_input, proposals, scores, chosen.intent⟩]⟩)

/-- replay_episode: for each stored step, rebuild the candidate list by
zipping the stored proposal and score values (providers and scorer are not
re-invoked) and let the arbitrator choose again. -/
def replay_episode (ep : Episode)
    (choose : List (DecisionProposal × DecisionScore) → Except ArbError DecisionProposal) :
    Except ArbError (List String) :=
  mapExceptList (fun step =>
    let scored := (step.proposals.map Prod.snd).zip (step.scores.map Prod.snd)
    (choose scored).map (fun chosen => chosen.intent)) ep.steps

/-- replay_episode with the in-place list mutation of an arbitrator made
explicit.  Each step's candidate list is a fresh list zipped from the
stored mappings' values; only that fresh list is handed to the arbitrator,
which may rewrite it arbitrarily (the second component of its result is
the final content of the list).  The returned episode is rebuilt from the
steps exactly as replay leaves them. -/
def replay_episode_tracked (ep : Episode)
    (chooseTracked : List (DecisionProposal × DecisionScore) →
      Except ArbError (DecisionProposal × List (DecisionProposal × DecisionScore))) :
    Except ArbError (List String × Episode) :=
  (mapExceptList (fun step =>
      let scored := (step.proposals.map Prod.snd).zip (step.scores.map Prod.snd)
      (chooseTracked scored).map (fun r => (r.1.intent, step))) ep.steps).map
    (fun l => (l.map Prod.fst, ⟨l.map Prod.snd⟩))

end EpReplay

namespace EpReplay

/-- Failure of deserialize_episode: `d[k]` on a dict without key `k` raises
KeyError; iterating or indexing a non-dict/non-list, and calling a
dataclass constructor with `**d` whose key set is not exactly the field
set, raise TypeError. -/
inductive DesError where
  | keyError
  | typeError
deriving DecidableEq, Repr

/-- Serialization of a string-to-string dict (asdict leaves it as is). -/
def serializeStrPairs (l : List (String × String)) : JValue :=
  JValue.obj (l.map (fun kv => (kv.1, JValue.str kv.2)))

/-- Serialization of a list of strings. -/
def serializeStrList (l : List String) : JValue :=
  JValue.arr (l.map JValue.str)

/-- asdict of an AgentState. -/
def serializeAgentState (s : AgentState) : JValue :=
  JValue.obj [("status", JValue.str s.status),
              ("user_intent", JValue.str s.user_intent),
              ("meeting_time", JValue.str s.meeting_time)]

/-- asdict of a DecisionInput. -/
def serializeDecisionInput (i : DecisionInput) : JValue :=
  JValue.obj [("observable_state", serializeStrPairs i.observable_state),
              ("allowed_intents", serializeStrList i.allowed_intents),
              ("constraints", serializeStrList i.constraints)]

/-- asdict of a DecisionProposal. -/
def serializeProposal (p : DecisionProposal) : JValue :=
  JValue.obj [("intent", JValue.str p.intent),
              ("args", serializeStrPairs p.args),
              ("confidence", JValue.rat p.confidence)]

/-- asdict of a DecisionScore. -/
def serializeScore (s : DecisionScore) : JValue :=
  JValue.obj [("confidence", JValue.rat s.confidence),
              ("intent_valid", JValue.bool s.intent_valid),
              ("constraint_violation", JValue.int s.constraint_violation),
              ("provider_priority", JValue.int s.provider_priority)]

/-- One step entry of serialize_episode. -/
def serializeStep (step : EpisodeStep) : JValue :=
  JValue.obj [("state_snapshot", serializeAgentState step.state_snapshot),
              ("decision_input", serializeDecisionInput step.decision_input),
              ("proposals",
                JValue.obj (step.proposals.map (fun kv => (kv.1, serializeProposal kv.2)))),
              ("scores",
                JValue.obj (step.scores.map (fun kv => (kv.1, serializeScore kv.2)))),
              ("chosen_intent", JValue.str step.chosen_intent)]

/-- serialize_episode of agent_simple_v7_episode_replay.py. -/
def serialize_episode (ep : Episode) : JValue :=
  JValue.obj [("steps", JValue.arr (ep.steps.map serializeStep))]

/-- Parse a string-to-string dict. -/
def parseStrPairs : JValue → Except DesError (List (String × String))
  | JValue.obj fs =>
    mapExceptList (fun kv =>
      match kv.2 with
      | JValue.str s => Except.ok (kv.1, s)
      | _ => Except.error DesError.typeError) fs
  | _ => Except.error DesError.typeError

/-- Parse a list of strings. -/
def parseStrList : JValue → Except DesError (List String)
  | JValue.arr l =>
    mapExceptList (fun v =>
      match v with
      | JValue.str s => Except.ok s
      | _ => Except.error DesError.typeError) l
  | _ => Except.error DesError.typeError

/-- `AgentState(**d)`: requires the key set of `d` to be exactly the field
set of AgentState (three keys present and no others).  The dataclass does
not type-check field values at runtime; the embedding types them as the
strings the program always stores. -/
def parseAgentState : JValue → Except DesError AgentState
  | JValue.obj fs =>
    match lookupField fs "status", lookupField fs "user_intent",
        lookupField fs "meeting_time" with
    | some (JValue.str a), some (JValue.str b), some (JValue.str c) =>
      if fs.length == 3 then Except.ok ⟨a, b, c⟩
      else Except.error DesError.typeError
    | _, _, _ => Except.error DesError.typeError
  | _ => Except.error DesError.typeError

/-- `DecisionInput(**d)`, with the same exact-key-set semantics. -/
def parseDecisionInput : JValue → Except DesError DecisionInput
  | JValue.obj fs =>
    match lookupField fs "observable_state", lookupField fs "allowed_intents",
        lookupField fs "constraints" with
    | some vo, some va, some vc =>
      if fs.length == 3 then do
        let o ← parseStrPairs vo
        let a ← parseStrList va
        let c ← parseStrList vc
        Except.ok (⟨o, a, c⟩ : DecisionInput)
      else Except.error DesError.typeError
    | _, _, _ => Except.error DesError.typeError
  | _ => Except.error DesError.typeError

/-- `DecisionProposal(**d)`. -/
def parseProposal : JValue → Except DesError DecisionProposal
  | JValue.obj fs =>
    match lookupField fs "intent", lookupField fs "args",
        lookupField fs "confidence" with
    | some (JValue.str i), some va, some (JValue.rat q) =>
      if fs.length == 3 then do
        let a ← parseStrPairs va
        Except.ok (⟨i, a, q⟩ : DecisionProposal)
      else Except.error DesError.typeError
    | _, _, _ => Except.error DesError.typeError
  | _ => Except.error DesError.typeError

/-- `DecisionScore(**d)`. -/
def parseScore : JValue → Except DesError DecisionScore
  | JValue.obj fs =>
    match lookupField fs "confidence", lookupField fs "intent_valid",
        lookupField fs "constraint_violation", lookupField fs "provider_priority" with
    | some (JValue.rat q), some (JValue.bool v), some (JValue.int cv),
        some (JValue.int pp) =>
      if fs.length == 4 then Except.ok ⟨q, v, cv, pp⟩
      else Except.error DesError.typeError
    | _, _, _, _ => Except.error DesError.typeError
  | _ => Except.error DesError.typeError

/-- The proposals mapping of one step: each value parsed with
`DecisionProposal(**v)`, insertion order preserved. -/
def parseProposals : JValue → Except DesError (List (String × DecisionProposal))
  | JValue.obj fs =>
    mapExceptList (fun kv => do
      let p ← parseProposal kv.2
      Except.ok (kv.1, p)) fs
  | _ => Except.error DesError.typeError

/-- The scores mapping of one step: each value parsed with
`DecisionScore(**v)`, insertion order preserved. -/
def parseScores : JValue → Except DesError (List (String × DecisionScore))
  | JValue.obj fs =>
    mapExceptList (fun kv => do
      let s ← parseScore kv.2
      Except.ok (kv.1, s)) fs
  | _ => Except.error DesError.typeError

/-- One step of deserialize_episode.  The step entry itself is indexed with
`s["..."]` (KeyError when absent, extra keys ignored); the nested
dataclasses are rebuilt with `**` (exact key sets).  No relation between
the proposals and scores key sets is ever checked. -/
def parseStep : JValue → Except DesError EpisodeStep
  | JValue.obj fs => do
    let some vs := lookupField fs "state_snapshot"
      | Except.error DesError.keyError
    let some vi := lookupField fs "decision_input"
      | Except.error DesError.keyError
    let some vp := lookupField fs "proposals"
      | Except.error DesError.keyError
    let some vsc := lookupField fs "scores"
      | Except.error DesError.keyError
    let some vci := lookupField fs "chosen_intent"
      | Except.error DesError.keyError
    let st ← parseAgentState vs
    let di ← parseDecisionInput vi
    let ps ← parseProposals vp
    let sc ← parseScores vsc
    match vci with
    | JValue.str ci => Except.ok ⟨st, di, ps, sc, ci⟩
    | _ => Except.error DesError.typeError
  | _ => Except.error DesError.typeError

/-- deserialize_episode of agent_simple_v7_episode_replay.py. -/
def deserialize_episode (data : JValue) : Except DesError Episode :=
  match data with
  | JValue.obj fs =>
    match lookupField fs "steps" with
    | some (JValue.arr l) => (mapExceptList parseStep l).map Episode.mk
    | some _ => Except.error DesError.typeError
    | none => Except.error DesError.keyError
  | _ => Except.error DesError.typeError

/-- Spec-side predicate: all required fields of a serialized episode
document are present (a `steps` list whose entries each carry the five
step fields). -/
def stepRequiredFieldsPresent (v : JValue) : Bool :=
  match v with
  | JValue.obj fs =>
    (lookupField fs "state_snapshot").isSome &&
    (lookupField fs "decision_input").isSome &&
    (lookupField fs "proposals").isSome &&
    (lookupField fs "scores").isSome &&
    (lookupField fs "chosen_intent").isSome
  | _ => false

/-- Spec-side predicate: the document has a `steps` list and every step
carries all required fields. -/
def requiredFieldsPresent (doc : JValue) : Bool :=
  match doc with
  | JValue.obj fs =>
    match lookupField fs "steps" with
    | some (JValue.arr l) => l.all stepRequiredFieldsPresent
    | _ => false
  | _ => false

/-- A serialized episode document whose single step has proposals keyed by
"rule" but scores keyed by "abort": the two key sets differ. -/
def mismatchedDoc : JValue :=
  JValue.obj [("steps", JValue.arr [JValue.obj
    [("state_snapshot", JValue.obj
        [("status", JValue.str "awaiting_user_confirmation"),
         ("user_intent", JValue.str "reschedule_meeting"),
         ("meeting_time", JValue.str "2026-01-06 10:00")]),
     ("decision_input", JValue.obj
        [("observable_state", JValue.obj [("status", JValue.str "awaiting_user_confirmation")]),
         ("allowed_intents", JValue.arr [JValue.str "AskForConfirmation"]),
         ("constraints", JValue.arr [])]),
     ("proposals", JValue.obj
        [("rule", JValue.obj
           [("intent", JValue.str "AskForConfirmation"),
            ("args", JValue.obj [("message", JValue.str "Rule: please confirm first")]),
            ("confidence", JValue.rat (mkRat 7 10))])]),
     ("scores", JValue.obj
        [("abort", JValue.obj
           [("confidence", JValue.rat (mkRat 6 10)),
            ("intent_valid", JValue.bool true),
            ("constraint_violation", JValue.int 0),
            ("provider_priority", JValue.int 2)])]),
     ("chosen_intent", JValue.str "AskForConfirmation")]])]

/-- The episode deserialize_episode silently builds from `mismatchedDoc`. -/
def mismatchedEpisode : Episode :=
  ⟨[⟨⟨"awaiting_user_confirmation", "reschedule_meeting", "2026-01-06 10:00"⟩,
     ⟨[("status", "awaiting_user_confirmation")], ["AskForConfirmation"], []⟩,
     [("rule", ⟨"AskForConfirmation", [("message", "Rule: please confirm first")], mkRat 7 10⟩)],
     [("abort", ⟨mkRat 6 10, true, 0, 2⟩)],
     "AskForConfirmation"⟩]⟩

/-- The concrete step run_online_episode freezes with the baseline
arbitrator when the LLM draws AskForConfirmation at confidence mkRat 1 2. -/
def sampleStep : EpisodeStep :=
  ⟨⟨"awaiting_user_confirmation", "reschedule_meeting", "2026-01-06 10:00"⟩,
   ⟨[("status", "awaiting_user_confirmation"),
     ("meeting_time", "2026-01-06 10:00")],
    ["AskForConfirmation", "SendRescheduleEmail", "Abort"],
    ["Do not send email without confirmation"]⟩,
   [("llm", ⟨"AskForConfirmation",
       [("message", "LLM suggests AskForConfirmation")], mkRat 1 2⟩),
    ("rule", ⟨"AskForConfirmation",
       [("message", "Rule: please confirm first")], mkRat 7 10⟩),
    ("abort", ⟨"Abort", [("reason", "User intent unclear")], mkRat 6 10⟩)],
   [("llm", ⟨mkRat 1 2, true, 0, 1⟩),
    ("rule", ⟨mkRat 7 10, true, 0, 3⟩),
    ("abort", ⟨mkRat 6 10, true, 0, 2⟩)],
   "AskForConfirmation"⟩

/-- The one-step episode holding `sampleStep`. -/
def sampleEpisode : Episode := ⟨[sampleStep]⟩

end EpReplay

/-! ### agent-system/agent_simple_v7_episode_arbitration..py -/

namespace EpArb

/-- AgentState of agent_simple_v7_episode_arbitration..py. -/
structure AgentState where
  status : String
  user_intent : String
  meeting_time : String
deriving DecidableEq, Repr

/-- AgentState.snapshot: deep copy, the identity under value semantics. -/
def AgentState.snapshot (s : AgentState) : AgentState := s

/-- Decision: the final executable decision; every payload this file builds
maps string keys to string values. -/
structure Decision where
  type : String
  payload : List (String × String)
deriving DecidableEq, Repr

/-- AgentState.apply: evolve a snapshot of the state according to the
decision type.  AskForConfirmation sets waiting_user_response, Abort sets
aborted, anything else leaves the copy untouched. -/
def AgentState.apply (s : AgentState) (decision : Decision) : AgentState :=
  let new_state := s.snapshot
  if decision.type == "AskForConfirmation" then
    ⟨"waiting_user_response", new_state.user_intent, new_state.meeting_time⟩
  else if decision.type == "Abort" then
    ⟨"aborted", new_state.user_intent, new_state.meeting_time⟩
  else new_state

/-- DecisionProposal of this file. -/
structure DecisionProposal where
  intent : String
  args : List (String × String)
  confidence : ℚ
deriving DecidableEq, Repr

/-- DecisionScore of this file. -/
structure DecisionScore where
  confidence : ℚ
  intent_valid : Bool
  constraint_violation : Int
  provider_priority : Int
deriving DecidableEq, Repr

/-- Failure of the baseline arbitrator of this file: `valid[0]` on an empty
list raises a Python IndexError (there is no explicit guard here). -/
inductive ArbError where
  | indexError
deriving DecidableEq, Repr

/-- The filter of DecisionArbitrator.choose:
`s.intent_valid and s.constraint_violation == 0`. -/
def validCandidate (x : DecisionProposal × DecisionScore) : Bool :=
  x.2.intent_valid && x.2.constraint_violation == 0

/-- Boolean ascending comparison induced by the sort key
`(-provider_priority, -confidence)` of DecisionArbitrator.choose. -/
def baselineLe (a b : DecisionProposal × DecisionScore) : Bool :=
  decide (b.2.provider_priority < a.2.provider_priority) ||
    (a.2.provider_priority == b.2.provider_priority &&
      decide (b.2.confidence ≤ a.2.confidence))

/-- DecisionArbitrator.choose of agent_simple_v7_episode_arbitration..py:
filter the valid candidates, stable-sort ascending by
`(-provider_priority, -confidence)`, return the first; `valid[0]` on an
empty list fails. -/
def DecisionArbitrator.choose (scored : List (DecisionProposal × DecisionScore)) :
    Except ArbError DecisionProposal :=
  let valid := scored.filter validCandidate
  match (insertionSort baselineLe valid).head? with
  | some x => Except.ok x.1
  | none => Except.error ArbError.indexError

/-- Boolean ascending comparison following the spec's words for the
baseline arbitrator: sort ascending by
`(constraint_violation, -provider_priority, -confidence)`. -/
def specLe (a b : DecisionProposal × DecisionScore) : Bool :=
  decide (a.2.constraint_violation < b.2.constraint_violation) ||
    (a.2.constraint_violation == b.2.constraint_violation &&
      (decide (b.2.provider_priority < a.2.provider_priority) ||
        (a.2.provider_priority == b.2.provider_priority &&
          decide (b.2.confidence ≤ a.2.confidence))))

/-- The Rule candidate of concrete scenario A: AskForConfirmation at
confidence 0.7, priority 3, valid and violation-free. -/
def ruleCandidate : DecisionProposal × DecisionScore :=
  (⟨"AskForConfirmation", [("message", "Rule: please confirm first")], mkRat 7 10⟩,
   ⟨mkRat 7 10, true, 0, 3⟩)

/-- The Abort candidate of concrete scenario A: Abort at confidence 0.6,
priority 2, valid and violation-free. -/
def abortCandidate : DecisionProposal × DecisionScore :=
  (⟨"Abort", [("reason", "User intent unclear")], mkRat 6 10⟩,
   ⟨mkRat 6 10, true, 0, 2⟩)

end EpArb

/-! ### agent-system/agent_simple_v7_replay_ab.py -/

namespace ReplayAB

/-- AgentState of agent_simple_v7_replay_ab.py; `meeting` is a dict. -/
structure AgentState where
  status : String
  user_intent : String
  meeting : List (String × String)
deriving DecidableEq, Repr

/-- AgentState.snapshot: deep copy, the identity under value semantics. -/
def AgentState.snapshot (s : AgentState) : AgentState := s

/-- Decision of agent_simple_v7_replay_ab.py. -/
structure Decision where
  type : String
  payload : List (String × String)
deriving DecidableEq, Repr

/-- AgentState.apply of agent_simple_v7_replay_ab.py: only the
AskForConfirmation transition is implemented; every other decision type
returns the snapshot unchanged. -/
def AgentState.apply (s : AgentState) (decision : Decision) : AgentState :=
  let new_state := s.snapshot
  if decision.type == "AskForConfirmation" then
    ⟨"waiting_user_response", new_state.user_intent, new_state.meeting⟩
  else new_state

/-- DecisionProposal of this file. -/
structure DecisionProposal where
  intent : String
  args : List (String × String)
  confidence : ℚ
deriving DecidableEq, Repr

/-- DecisionScore of this file. -/
structure DecisionScore where
  confidence : ℚ
  intent_valid : Bool
  constraint_violation : Int
  provider_priority : Int
deriving DecidableEq, Repr

/-- Failure of the baseline arbitrator of this file: the explicit guard
`raise RuntimeError("No valid proposals")`. -/
inductive ArbError where
  | noValidProposals
deriving DecidableEq, Repr

/-- The filter of DecisionArbitrator.choose:
`s.intent_valid and s.constraint_violation == 0`. -/
def validCandidate (x : DecisionProposal × DecisionScore) : Bool :=
  x.2.intent_valid && x.2.constraint_violation == 0

/-- Boolean ascending comparison induced by the sort key
`(constraint_violation, -provider_priority, -confidence)` of
DecisionArbitrator.choose in this file. -/
def abLe (a b : DecisionProposal × DecisionScore) : Bool :=
  decide (a.2.constraint_violation < b.2.constraint_violation) ||
    (a.2.constraint_violation == b.2.constraint_violation &&
      (decide (b.2.provider_priority < a.2.provider_priority) ||
        (a.2.provider_priority == b.2.provider_priority &&
          decide (b.2.confidence ≤ a.2.confidence))))

/-- DecisionArbitrator.choose of agent_simple_v7_replay_ab.py: filter the
valid candidates; if none remain fail with the explicit RuntimeError
guard; else stable-sort ascending by
`(constraint_violation, -provider_priority, -confidence)` and return the
first.  The sorted list is empty exactly when the filtered list is, so the
guard is expressed on the head of the sorted list. -/
def DecisionArbitrator.choose (scored : List (DecisionProposal × DecisionScore)) :
    Except ArbError DecisionProposal :=
  let valid := scored.filter validCandidate
  match (insertionSort abLe valid).head? with
  | some x => Except.ok x.1
  | none => Except.error ArbError.noValidProposals

end ReplayAB

/-! ### agent-system/agent_simple_v7_clean.py -/

namespace Clean

/-- AgentState of agent_simple_v7_clean.py. -/
structure AgentState where
  status : String
  user_intent : String
  meeting : List (String × String)
  permissions : List String
deriving DecidableEq, Repr

/-- DecisionInput of agent_simple_v7_clean.py. -/
structure DecisionInput where
  task : String
  observable_state_snapshot : List (String × String)
  allowed_intents : List String
  constraints : List String
deriving DecidableEq, Repr

/-- DecisionProposal of agent_simple_v7_clean.py; the payload values are
arbitrary Python values, so `args` maps keys to document values. -/
structure DecisionProposal where
  intent : String
  args : List (String × JValue)
  confidence : ℚ

/-- Decision of agent_simple_v7_clean.py. -/
structure Decision where
  type : String
  payload : List (String × JValue)

/-- Failure of DecisionValidationLayer.validate: a failed `assert`. -/
inductive ValError where
  | assertionError
deriving DecidableEq, Repr

/-- Boolean test that an optional payload value is a string; models
`isinstance(args.get("message"), str)` (absent keys give None, which is
not a string). -/
def isStrValue : Option JValue → Bool
  | some (JValue.str _) => true
  | _ => false

/-- DecisionValidationLayer.validate of agent_simple_v7_clean.py: assert
intent legality, payload shape, the per-intent state precondition and the
confidence floor, then return the authoritative Decision carrying the
proposal's intent and args verbatim. -/
def DecisionValidationLayer.validate (state : AgentState)
    (proposal : DecisionProposal) (decision_input : DecisionInput) :
    Except ValError Decision :=
  if !(decision_input.allowed_intents.contains proposal.intent) then
    Except.error ValError.assertionError
  else if !(isStrValue (lookupField proposal.args "message")) then
    Except.error ValError.assertionError
  else if proposal.intent == "AskForConfirmation" &&
      !(state.status == "awaiting_user_confirmation") then
    Except.error ValError.assertionError
  else if !(decide ((mkRat 6 10 : ℚ) ≤ proposal.confidence)) then
    Except.error ValError.assertionError
  else
    Except.ok ⟨proposal.intent, proposal.args⟩

end Clean

/-! ### Helper lemmas -/

theorem mem_insertSorted {le : α → α → Bool} {x a : α} :
    ∀ {l : List α}, a ∈ insertSorted le x l ↔ a = x ∨ a ∈ l := by
  intro l
  induction l with
  | nil => simp [insertSorted]
  | cons y ys ih =>
    by_cases h : le x y = true
    · simp [insertSorted, h, List.mem_cons]
    · simp only [insertSorted, if_neg h, List.mem_cons, ih]
      tauto

theorem mem_insertionSort {le : α → α → Bool} {a : α} :
    ∀ {l : List α}, a ∈ insertionSort le l ↔ a ∈ l := by
  intro l
  induction l with
  | nil => simp [insertionSort]
  | cons x xs ih =>
    simp [insertionSort, mem_insertSorted, ih, List.mem_cons]

theorem insertSorted_ne_nil {le : α → α → Bool} {x : α} {l : List α} :
    insertSorted le x l ≠ [] := by
  cases l with
  | nil => simp [insertSorted]
  | cons y ys =>
    by_cases h : le x y = true <;> simp [insertSorted, h]

theorem insertionSort_eq_nil {le : α → α → Bool} {l : List α} :
    insertionSort le l = [] ↔ l = [] := by
  cases l with
  | nil => simp [insertionSort]
  | cons x xs =>
    simp only [insertionSort]
    exact ⟨fun h => absurd h insertSorted_ne_nil, fun h => by cases h⟩

theorem insertSorted_congr {le₁ le₂ : α → α → Bool} {x : α} :
    ∀ {l : List α}, (∀ b ∈ l, le₁ x b = le₂ x b) →
      insertSorted le₁ x l = insertSorted le₂ x l := by
  intro l
  induction l with
  | nil => intro _; rfl
  | cons y ys ih =>
    intro h
    simp only [insertSorted, h y (List.mem_cons_self y ys)]
    by_cases hxy : le₂ x y = true
    · simp [hxy]
    · simp only [if_neg hxy]
      rw [ih (fun b hb => h b (List.mem_cons_of_mem y hb))]

theorem insertionSort_congr {le₁ le₂ : α → α → Bool} :
    ∀ {l : List α}, (∀ a ∈ l, ∀ b ∈ l, le₁ a b = le₂ a b) →
      insertionSort le₁ l = insertionSort le₂ l := by
  intro l
  induction l with
  | nil => intro _; rfl
  | cons x xs ih =>
    intro h
    simp only [insertionSort]
    rw [ih (fun a ha b hb =>
      h a (List.mem_cons_of_mem x ha) b (List.mem_cons_of_mem x hb))]
    exact insertSorted_congr (fun b hb =>
      h x (List.mem_cons_self x xs) b
        (List.mem_cons_of_mem x (mem_insertionSort.mp hb)))

/-- Head of the stable sort of a filtered list, when some element passes the
filter: the head exists, comes from the original list and passes the
filter.  This is the shape shared by every baseline arbitrator. -/
theorem head_insertionSort_filter {p : α → Bool} (le : α → α → Bool)
    {l : List α} (h : ∃ a ∈ l, p a = true) :
    ∃ c, (insertionSort le (l.filter p)).head? = some c ∧ c ∈ l ∧ p c = true := by
  obtain ⟨a, ha, hpa⟩ := h
  have hfne : l.filter p ≠ [] := by
    intro hnil
    exact absurd hpa (by simpa using List.filter_eq_nil_iff.mp hnil a ha)
  have hsne : insertionSort le (l.filter p) ≠ [] :=
    fun hh => hfne (insertionSort_eq_nil.mp hh)
  rcases hS : insertionSort le (l.filter p) with _ | ⟨c, cs⟩
  · exact absurd hS hsne
  · have hc : c ∈ l.filter p := mem_insertionSort.mp (by rw [hS]; exact List.mem_cons_self c cs)
    exact ⟨c, by simp, (List.mem_filter.mp hc).1, (List.mem_filter.mp hc).2⟩

/-- Head of the stable sort of a filtered list when nothing passes the
filter: there is no head. -/
theorem head_insertionSort_filter_none {p : α → Bool} (le : α → α → Bool)
    {l : List α} (h : ∀ a ∈ l, ¬ p a = true) :
    (insertionSort le (l.filter p)).head? = none := by
  have : l.filter p = [] := List.filter_eq_nil_iff.mpr h
  rw [this]
  rfl

theorem mapExceptList_ok_of_forall {f : α → Except ε β} {g : α → β} :
    ∀ {l : List α}, (∀ a ∈ l, f a = Except.ok (g a)) →
      mapExceptList f l = Except.ok (l.map g) := by
  intro l
  induction l with
  | nil => intro _; rfl
  | cons x xs ih =>
    intro h
    simp only [mapExceptList, h x (List.mem_cons_self x xs),
      ih (fun a ha => h a (List.mem_cons_of_mem x ha)), List.map]

theorem mapExceptList_ok_mem {f : α → Except ε β} :
    ∀ {l : List α} {ys : List β}, mapExceptList f l = Except.ok ys →
      ∀ a ∈ l, ∃ b, f a = Except.ok b := by
  intro l
  induction l with
  | nil => intro ys _ a ha; cases ha
  | cons x xs ih =>
    intro ys h a ha
    rcases hx : f x with e | y
    · rw [mapExceptList, hx] at h; cases h
    · rcases hxs : mapExceptList f xs with e | ys'
      · rw [mapExceptList, hx, hxs] at h; cases h
      · rcases List.mem_cons.mp ha with rfl | ha'
        · exact ⟨y, hx⟩
        · exact ih hxs a ha'

theorem exceptMap_ok {f : α → β} {e : Except ε α} {b : β}
    (h : Except.map f e = Except.ok b) : ∃ a, e = Except.ok a ∧ f a = b := by
  cases e with
  | error err => simp [Except.map] at h
  | ok a => exact ⟨a, rfl, by simpa [Except.map] using h⟩

theorem mapExceptList_ok_snd {f : α → Except ε (β × α)}
    (hf : ∀ a b, f a = Except.ok b → b.2 = a) :
    ∀ {l : List α} {ys : List (β × α)}, mapExceptList f l = Except.ok ys →
      ys.map Prod.snd = l := by
  intro l
  induction l with
  | nil =>
    intro ys h
    injection h with h
    subst h
    rfl
  | cons x xs ih =>
    intro ys h
    rcases hx : f x with e | y
    · simp [mapExceptList, hx] at h
    · rcases hxs : mapExceptList f xs with e | ys'
      · simp [mapExceptList, hx, hxs] at h
      · simp only [mapExceptList, hx, hxs] at h
        injection h with h
        subst h
        simp [List.map, hf x y hx, ih hxs]

/-! ### Claim theorems -/

/-- C8: ProposalScorer.score is a pure function of its three arguments
(proposal, decision input, provider identity): any two calls on equal
triples return equal DecisionScore values.  The method reads nothing but
its arguments — no hidden state, clock or randomness — which is why it
embeds as a total function. -/
theorem score_pure_deterministic
    (p₁ p₂ : EpReplay.DecisionProposal) (i₁ i₂ : EpReplay.DecisionInput)
    (n₁ n₂ : String) (hp : p₁ = p₂) (hi : i₁ = i₂) (hn : n₁ = n₂) :
    EpReplay.ProposalScorer.score p₁ i₁ n₁ = EpReplay.ProposalScorer.score p₂ i₂ n₂ := by
  subst hp
  subst hi
  subst hn
  rfl

/-- Witness for C8 at a concrete triple: scoring the rule proposal twice
against the bootstrap decision input yields the same score. -/
theorem score_pure_deterministic_witness :
    EpReplay.ProposalScorer.score EpReplay.RuleProvider.propose
        ⟨[("status", "awaiting_user_confirmation"),
          ("meeting_time", "2026-01-06 10:00")],
         ["AskForConfirmation", "SendRescheduleEmail", "Abort"],
         ["Do not send email without confirmation"]⟩ "rule" =
      EpReplay.ProposalScorer.score EpReplay.RuleProvider.propose
        ⟨[("status", "awaiting_user_confirmation"),
          ("meeting_time", "2026-01-06 10:00")],
         ["AskForConfirmation", "SendRescheduleEmail", "Abort"],
         ["Do not send email without confirmation"]⟩ "rule" :=
  score_pure_deterministic _ _ _ _ _ _ rfl rfl rfl

/-- C6 counterexample: the replay-AB variant of AgentState.apply, cited by
the claim, has no Abort branch.  Applying an Abort decision to the
concrete awaiting-confirmation state leaves the status unchanged instead
of producing "aborted", so the claim as stated is false on this code. -/
theorem apply_abort_unhandled_counterexample :
    (ReplayAB.AgentState.apply
        ⟨"awaiting_user_confirmation", "reschedule_meeting",
         [("id", "m_123"), ("time", "2026-01-06 10:00")]⟩
        ⟨"Abort", [("reason", "User intent unclear")]⟩).status ≠ "aborted" := by
  decide

/-- C6 (amended): the episode-arbitration variant of AgentState.apply
realizes the claimed table — from awaiting_user_confirmation,
AskForConfirmation yields waiting_user_response and Abort yields aborted,
and an unrecognized decision type returns the state unchanged — while the
replay-AB variant implements only the AskForConfirmation row and returns
the state unchanged for Abort and every other unrecognized type. -/
theorem apply_transition_table :
    (∀ (s : EpArb.AgentState) (p : List (String × String)),
      s.status = "awaiting_user_confirmation" →
        (s.apply ⟨"AskForConfirmation", p⟩).status = "waiting_user_response" ∧
          (s.apply ⟨"Abort", p⟩).status = "aborted") ∧
    (∀ (s : EpArb.AgentState) (d : EpArb.Decision),
      d.type ≠ "AskForConfirmation" → d.type ≠ "Abort" → s.apply d = s) ∧
    (∀ (s : ReplayAB.AgentState) (p : List (String × String)),
      (ReplayAB.AgentState.apply s ⟨"AskForConfirmation", p⟩).status =
        "waiting_user_response") ∧
    (∀ (s : ReplayAB.AgentState) (d : ReplayAB.Decision),
      d.type ≠ "AskForConfirmation" →
        ReplayAB.AgentState.apply s d = s) := by
  refine ⟨fun s p _ => ⟨rfl, rfl⟩, ?_, fun s p => rfl, ?_⟩
  · intro s d h₁ h₂
    simp [EpArb.AgentState.apply, EpArb.AgentState.snapshot, h₁, h₂]
  · intro s d h₁
    simp [ReplayAB.AgentState.apply, ReplayAB.AgentState.snapshot, h₁]

/-- Witness for C6 (amended) at concrete inputs: the arbitration-variant
transitions from the bootstrap state, and unchanged states under the
unrecognized type "SendRescheduleEmail". -/
theorem apply_transition_table_witness :
    ((EpArb.AgentState.apply
        ⟨"awaiting_user_confirmation", "reschedule_meeting", "2026-01-06 10:00"⟩
        ⟨"AskForConfirmation", []⟩).status = "waiting_user_response" ∧
      (EpArb.AgentState.apply
        ⟨"awaiting_user_confirmation", "reschedule_meeting", "2026-01-06 10:00"⟩
        ⟨"Abort", []⟩).status = "aborted") ∧
    EpArb.AgentState.apply
        ⟨"awaiting_user_confirmation", "reschedule_meeting", "2026-01-06 10:00"⟩
        ⟨"SendRescheduleEmail", []⟩ =
      ⟨"awaiting_user_confirmation", "reschedule_meeting", "2026-01-06 10:00"⟩ ∧
    ReplayAB.AgentState.apply
        ⟨"awaiting_user_confirmation", "reschedule_meeting", [("time", "2026-01-06 10:00")]⟩
        ⟨"Abort", []⟩ =
      ⟨"awaiting_user_confirmation", "reschedule_meeting", [("time", "2026-01-06 10:00")]⟩ :=
  ⟨apply_transition_table.1
      ⟨"awaiting_user_confirmation", "reschedule_meeting", "2026-01-06 10:00"⟩ [] rfl,
   apply_transition_table.2.1
      ⟨"awaiting_user_confirmation", "reschedule_meeting", "2026-01-06 10:00"⟩
      ⟨"SendRescheduleEmail", []⟩ (by decide) (by decide),
   apply_transition_table.2.2.2
      ⟨"awaiting_user_confirmation", "reschedule_meeting", [("time", "2026-01-06 10:00")]⟩
      ⟨"Abort", []⟩ (by decide)⟩

/-- C1: for both baseline arbitrators cited by the claim, whenever at
least one candidate is valid and violation-free, choose returns one of
those candidates (never an invalid or violating one); and when no such
candidate exists, choose fails — with the IndexError of `valid[0]` in the
episode-arbitration variant and the explicit RuntimeError guard in the
replay-AB variant — and never returns a substitute proposal. -/
theorem baseline_choose_valid_or_error :
    (∀ scored : List (EpArb.DecisionProposal × EpArb.DecisionScore),
      ((∃ c ∈ scored, EpArb.validCandidate c = true) →
        ∃ c ∈ scored, EpArb.validCandidate c = true ∧
          EpArb.DecisionArbitrator.choose scored = Except.ok c.1) ∧
      ((∀ c ∈ scored, ¬ EpArb.validCandidate c = true) →
        EpArb.DecisionArbitrator.choose scored =
          Except.error EpArb.ArbError.indexError)) ∧
    (∀ scored : List (ReplayAB.DecisionProposal × ReplayAB.DecisionScore),
      ((∃ c ∈ scored, ReplayAB.validCandidate c = true) →
        ∃ c ∈ scored, ReplayAB.validCandidate c = true ∧
          ReplayAB.DecisionArbitrator.choose scored = Except.ok c.1) ∧
      ((∀ c ∈ scored, ¬ ReplayAB.validCandidate c = true) →
        ReplayAB.DecisionArbitrator.choose scored =
          Except.error ReplayAB.ArbError.noValidProposals)) := by
  constructor
  · intro scored
    constructor
    · intro hex
      obtain ⟨c, hc, hmem, hvalid⟩ :=
        head_insertionSort_filter EpArb.baselineLe hex
      exact ⟨c, hmem, hvalid, by
        simp only [EpArb.DecisionArbitrator.choose, hc]⟩
    · intro hnone
      have h := head_insertionSort_filter_none EpArb.baselineLe hnone
      simp only [EpArb.DecisionArbitrator.choose, h]
  · intro scored
    constructor
    · intro hex
      obtain ⟨c, hc, hmem, hvalid⟩ :=
        head_insertionSort_filter ReplayAB.abLe hex
      exact ⟨c, hmem, hvalid, by
        simp only [ReplayAB.DecisionArbitrator.choose, hc]⟩
    · intro hnone
      have h := head_insertionSort_filter_none ReplayAB.abLe hnone
      simp only [ReplayAB.DecisionArbitrator.choose, h]

/-- Witness for C1 at concrete candidate lists: a valid one-candidate list
on which each variant returns that candidate, and lists with only invalid
or violating candidates on which each variant fails. -/
theorem baseline_choose_valid_or_error_witness :
    (∃ c ∈ [EpArb.ruleCandidate], EpArb.validCandidate c = true ∧
      EpArb.DecisionArbitrator.choose [EpArb.ruleCandidate] = Except.ok c.1) ∧
    EpArb.DecisionArbitrator.choose
        [(⟨"SendRescheduleEmail", [("message", "send it")], mkRat 9 10⟩,
          ⟨mkRat 9 10, true, 1, 1⟩)] =
      Except.error EpArb.ArbError.indexError ∧
    (∃ c ∈ [((⟨"AskForConfirmation", [("message", "ok?")], mkRat 19 20⟩ :
          ReplayAB.DecisionProposal),
        (⟨mkRat 19 20, true, 0, 2⟩ : ReplayAB.DecisionScore))],
      ReplayAB.validCandidate c = true ∧
      ReplayAB.DecisionArbitrator.choose
          [((⟨"AskForConfirmation", [("message", "ok?")], mkRat 19 20⟩ :
              ReplayAB.DecisionProposal),
            (⟨mkRat 19 20, true, 0, 2⟩ : ReplayAB.DecisionScore))] = Except.ok c.1) ∧
    ReplayAB.DecisionArbitrator.choose
        [((⟨"Unknown", [], mkRat 1 2⟩ : ReplayAB.DecisionProposal),
          (⟨mkRat 1 2, false, 0, 1⟩ : ReplayAB.DecisionScore))] =
      Except.error ReplayAB.ArbError.noValidProposals :=
  ⟨(baseline_choose_valid_or_error.1 [EpArb.ruleCandidate]).1
      ⟨EpArb.ruleCandidate, List.mem_singleton.mpr rfl, by decide⟩,
   (baseline_choose_valid_or_error.1 _).2 (by decide),
   (baseline_choose_valid_or_error.2 _).1
      ⟨_, List.mem_singleton.mpr rfl, by decide⟩,
   (baseline_choose_valid_or_error.2 _).2 (by decide)⟩

/-- C5: on every candidate list holding at least one valid violation-free
candidate, the baseline arbitrator returns the first candidate of the
stable ascending sort of the violation-free valid candidates by
(constraint_violation, -provider_priority, -confidence) — the code sorts
by (-provider_priority, -confidence) only, but on the filtered candidates
the violation count is identically 0, so the two orders coincide — and in
particular, on the Rule candidate (AskForConfirmation, confidence 0.7,
priority 3) and the Abort candidate (Abort, confidence 0.6, priority 2)
it chooses AskForConfirmation. -/
theorem baseline_choose_spec_order :
    (∀ scored : List (EpArb.DecisionProposal × EpArb.DecisionScore),
      (∃ c ∈ scored, EpArb.validCandidate c = true) →
      ∃ c, (insertionSort EpArb.specLe
              (scored.filter EpArb.validCandidate)).head? = some c ∧
        EpArb.DecisionArbitrator.choose scored = Except.ok c.1) ∧
    EpArb.DecisionArbitrator.choose [EpArb.ruleCandidate, EpArb.abortCandidate] =
      Except.ok EpArb.ruleCandidate.1 ∧
    EpArb.ruleCandidate.1.intent = "AskForConfirmation" := by
  refine ⟨?_, rfl, rfl⟩
  intro scored hex
  have hviol : ∀ c ∈ scored.filter EpArb.validCandidate,
      c.2.constraint_violation = 0 := by
    intro c hc
    have h2 := (List.mem_filter.mp hc).2
    have h3 := (Bool.and_eq_true _ _).mp h2
    exact beq_iff_eq.mp h3.2
  have hcongr : insertionSort EpArb.baselineLe (scored.filter EpArb.validCandidate) =
      insertionSort EpArb.specLe (scored.filter EpArb.validCandidate) := by
    apply insertionSort_congr
    intro a ha b hb
    simp [EpArb.baselineLe, EpArb.specLe, hviol a ha, hviol b hb]
  obtain ⟨c, hc, _, _⟩ := head_insertionSort_filter EpArb.baselineLe hex
  refine ⟨c, ?_, ?_⟩
  · rw [← hcongr]
    exact hc
  · simp only [EpArb.DecisionArbitrator.choose, hc]

/-- Witness for C5 at a concrete candidate list: on scenario A's two
candidates the spec-order head exists and is the returned Rule
candidate. -/
theorem baseline_choose_spec_order_witness :
    ∃ c, (insertionSort EpArb.specLe
            ([EpArb.ruleCandidate, EpArb.abortCandidate].filter
              EpArb.validCandidate)).head? = some c ∧
      EpArb.DecisionArbitrator.choose [EpArb.ruleCandidate, EpArb.abortCandidate] =
        Except.ok c.1 :=
  (baseline_choose_spec_order.1 [EpArb.ruleCandidate, EpArb.abortCandidate])
    ⟨EpArb.ruleCandidate, List.mem_cons_self _ _, by decide⟩

/-- C2: a step produced online by run_online_episode with the baseline
arbitrator replays to exactly its stored chosen intent when replayed with
a baseline arbitrator: the candidate list is rebuilt purely from the
stored proposals and scores mappings (no provider or scorer is
re-invoked) and the replayed choice equals the frozen one, for every
pseudorandom draw of the LLM provider. -/
theorem replay_baseline_projection (llmAsk : Bool) (llmConf : ℚ)
    (ep : EpReplay.Episode) (_h₁ : mkRat 2 5 ≤ llmConf) (_h₂ : llmConf ≤ mkRat 19 20)
    (hrun : EpReplay.run_online_episode EpReplay.DecisionArbitrator.choose
      llmAsk llmConf = Except.ok ep) :
    EpReplay.replay_episode ep EpReplay.DecisionArbitrator.choose =
      Except.ok (ep.steps.map (fun step => step.chosen_intent)) := by
  cases llmAsk
  · obtain rfl := Except.ok.inj hrun
    rfl
  · obtain rfl := Except.ok.inj hrun
    rfl

/-- Witness for C2 at a concrete online run (LLM draws AskForConfirmation
at confidence mkRat 1 2): replaying the frozen episode with the baseline
arbitrator returns its stored chosen intent. -/
theorem replay_baseline_projection_witness :
    mkRat 2 5 ≤ (mkRat 1 2 : ℚ) ∧ (mkRat 1 2 : ℚ) ≤ mkRat 19 20 ∧
    EpReplay.replay_episode EpReplay.sampleEpisode EpReplay.DecisionArbitrator.choose =
      Except.ok (EpReplay.sampleEpisode.steps.map (fun step => step.chosen_intent)) :=
  ⟨by decide, by decide,
   replay_baseline_projection true (mkRat 1 2) EpReplay.sampleEpisode
     (by decide) (by decide) rfl⟩

/-- C9: every step frozen by run_online_episode stores proposals and
scores mappings with the same key sequence (one proposal and one score per
provider identity, inserted pairwise), whatever arbitrator is used. -/
theorem run_online_episode_keyset_invariant
    (choose : List (EpReplay.DecisionProposal × EpReplay.DecisionScore) →
      Except EpReplay.ArbError EpReplay.DecisionProposal)
    (llmAsk : Bool) (llmConf : ℚ) (ep : EpReplay.Episode)
    (hrun : EpReplay.run_online_episode choose llmAsk llmConf = Except.ok ep) :
    ∀ step ∈ ep.steps,
      step.proposals.map Prod.fst = step.scores.map Prod.fst := by
  obtain ⟨chosen, _, rfl⟩ := exceptMap_ok hrun
  intro step hstep
  obtain rfl := List.mem_singleton.mp hstep
  rfl

/-- Witness for C9 at a concrete online run with the baseline arbitrator:
the frozen step's two mappings carry the same keys. -/
theorem run_online_episode_keyset_invariant_witness :
    EpReplay.sampleStep.proposals.map Prod.fst =
      EpReplay.sampleStep.scores.map Prod.fst :=
  run_online_episode_keyset_invariant EpReplay.DecisionArbitrator.choose true (mkRat 1 2)
    EpReplay.sampleEpisode rfl EpReplay.sampleStep (List.mem_singleton.mpr rfl)

/-- C10: replay leaves the episode unchanged.  The candidate list handed
to the arbitrator of each step is a fresh list zipped from the stored
mappings' values, so however the arbitrator rewrites that list (the
tracked embedding returns the list's final content), the episode replay
leaves behind equals the input episode, step for step. -/
theorem replay_episode_frame (ep : EpReplay.Episode)
    (chooseTracked : List (EpReplay.DecisionProposal × EpReplay.DecisionScore) →
      Except EpReplay.ArbError
        (EpReplay.DecisionProposal ×
          List (EpReplay.DecisionProposal × EpReplay.DecisionScore)))
    (out : List String × EpReplay.Episode)
    (h : EpReplay.replay_episode_tracked ep chooseTracked = Except.ok out) :
    out.2 = ep := by
  obtain ⟨l, hl, rfl⟩ := exceptMap_ok h
  have hsnd : l.map Prod.snd = ep.steps := by
    refine mapExceptList_ok_snd ?_ hl
    intro a b hb
    obtain ⟨r, _, rfl⟩ := exceptMap_ok hb
    rfl
  show EpReplay.Episode.mk (l.map Prod.snd) = ep
  rw [hsnd]

/-- Witness for C10 at a concrete episode and the in-place-sorting
confidence-only arbitrator: the episode replay leaves behind is the input
episode. -/
theorem replay_episode_frame_witness :
    ((["AskForConfirmation"], EpReplay.sampleEpisode)).2 = EpReplay.sampleEpisode :=
  replay_episode_frame EpReplay.sampleEpisode
    EpReplay.ConfidenceOnlyArbitrator.chooseTracked
    (["AskForConfirmation"], EpReplay.sampleEpisode) rfl

/-- C7: DecisionValidationLayer.validate fails exactly when the proposal's
intent is not among the allowed intents, the required "message" payload
field is missing or not a string, the AskForConfirmation state
precondition is unmet, or the confidence is below the 0.6 floor; otherwise
it returns the Decision whose type is the proposal's intent and whose
payload is the proposal's args verbatim. -/
theorem validate_contract (state : Clean.AgentState)
    (proposal : Clean.DecisionProposal) (decision_input : Clean.DecisionInput) :
    (Clean.DecisionValidationLayer.validate state proposal decision_input =
        Except.error Clean.ValError.assertionError ↔
      (proposal.intent ∉ decision_input.allowed_intents ∨
        Clean.isStrValue (lookupField proposal.args "message") = false ∨
        (proposal.intent = "AskForConfirmation" ∧
          state.status ≠ "awaiting_user_confirmation") ∨
        proposal.confidence < mkRat 6 10)) ∧
    (Clean.DecisionValidationLayer.validate state proposal decision_input =
        Except.ok ⟨proposal.intent, proposal.args⟩ ↔
      (proposal.intent ∈ decision_input.allowed_intents ∧
        Clean.isStrValue (lookupField proposal.args "message") = true ∧
        (proposal.intent = "AskForConfirmation" →
          state.status = "awaiting_user_confirmation") ∧
        mkRat 6 10 ≤ proposal.confidence)) := by
  unfold Clean.DecisionValidationLayer.validate
  by_cases h1 : proposal.intent ∈ decision_input.allowed_intents <;>
    by_cases h2 : Clean.isStrValue (lookupField proposal.args "message") = true <;>
    by_cases h3 : proposal.intent = "AskForConfirmation" <;>
    by_cases h4 : state.status = "awaiting_user_confirmation" <;>
    by_cases h5 : mkRat 6 10 ≤ proposal.confidence <;>
    simp_all [List.contains, not_le]

/-- Witness for C7 at the concrete clean-file scenario (bootstrap state,
LLM proposal at confidence 0.71, the agent's decision input): validation
succeeds and returns the proposal's intent and args verbatim. -/
theorem validate_contract_witness :
    Clean.DecisionValidationLayer.validate
        ⟨"awaiting_user_confirmation", "reschedule_meeting",
         [("id", "m_123"), ("time", "2026-01-06 10:00")], ["send_email"]⟩
        ⟨"AskForConfirmation",
         [("message",
           JValue.str "Do you want me to reschedule the meeting to a new time?")],
         mkRat 71 100⟩
        ⟨"Handle user's request",
         [("status", "awaiting_user_confirmation")],
         ["AskForConfirmation", "SendRescheduleEmail", "Abort"],
         ["Do not send email without confirmation", "Only propose one intent"]⟩ =
      Except.ok ⟨"AskForConfirmation",
        [("message",
          JValue.str "Do you want me to reschedule the meeting to a new time?")]⟩ :=
  (validate_contract _ _ _).2.mpr
    ⟨List.mem_cons_self _ _, rfl, fun _ => rfl, by decide⟩

theorem except_bind_ok (a : α) (f : α → Except ε β) :
    (Except.ok a : Except ε α) >>= f = f a := rfl

theorem mapExceptList_map_ok {f : β → Except ε α} {g : α → β} :
    ∀ {l : List α}, (∀ a ∈ l, f (g a) = Except.ok a) →
      mapExceptList f (l.map g) = Except.ok l := by
  intro l
  induction l with
  | nil => intro _; rfl
  | cons x xs ih =>
    intro h
    simp only [List.map, mapExceptList, h x (List.mem_cons_self x xs),
      ih (fun a ha => h a (List.mem_cons_of_mem x ha))]

theorem parseStrPairs_serialize (l : List (String × String)) :
    EpReplay.parseStrPairs (EpReplay.serializeStrPairs l) = Except.ok l :=
  mapExceptList_map_ok (fun _ _ => rfl)

theorem parseStrList_serialize (l : List String) :
    EpReplay.parseStrList (EpReplay.serializeStrList l) = Except.ok l :=
  mapExceptList_map_ok (fun _ _ => rfl)

theorem parseAgentState_serialize (s : EpReplay.AgentState) :
    EpReplay.parseAgentState (EpReplay.serializeAgentState s) = Except.ok s := rfl

theorem parseScore_serialize (s : EpReplay.DecisionScore) :
    EpReplay.parseScore (EpReplay.serializeScore s) = Except.ok s := rfl

theorem parseDecisionInput_serialize (i : EpReplay.DecisionInput) :
    EpReplay.parseDecisionInput (EpReplay.serializeDecisionInput i) = Except.ok i := by
  show (do
    let o ← EpReplay.parseStrPairs (EpReplay.serializeStrPairs i.observable_state)
    let a ← EpReplay.parseStrList (EpReplay.serializeStrList i.allowed_intents)
    let c ← EpReplay.parseStrList (EpReplay.serializeStrList i.constraints)
    Except.ok (⟨o, a, c⟩ : EpReplay.DecisionInput)) = Except.ok i
  simp only [parseStrPairs_serialize, parseStrList_serialize, except_bind_ok]

theorem parseProposal_serialize (p : EpReplay.DecisionProposal) :
    EpReplay.parseProposal (EpReplay.serializeProposal p) = Except.ok p := by
  show (do
    let a ← EpReplay.parseStrPairs (EpReplay.serializeStrPairs p.args)
    Except.ok (⟨p.intent, a, p.confidence⟩ : EpReplay.DecisionProposal)) = Except.ok p
  simp only [parseStrPairs_serialize, except_bind_ok]

theorem parseProposals_serialize (l : List (String × EpReplay.DecisionProposal)) :
    EpReplay.parseProposals
        (JValue.obj (l.map (fun kv => (kv.1, EpReplay.serializeProposal kv.2)))) =
      Except.ok l := by
  refine mapExceptList_map_ok ?_
  intro kv _
  show (do
    let p ← EpReplay.parseProposal (EpReplay.serializeProposal kv.2)
    Except.ok (kv.1, p)) = Except.ok kv
  simp only [parseProposal_serialize, except_bind_ok]

theorem parseScores_serialize (l : List (String × EpReplay.DecisionScore)) :
    EpReplay.parseScores
        (JValue.obj (l.map (fun kv => (kv.1, EpReplay.serializeScore kv.2)))) =
      Except.ok l := by
  refine mapExceptList_map_ok ?_
  intro kv _
  show (do
    let s ← EpReplay.parseScore (EpReplay.serializeScore kv.2)
    Except.ok (kv.1, s)) = Except.ok kv
  simp only [parseScore_serialize, except_bind_ok]

theorem parseStep_serialize (step : EpReplay.EpisodeStep) :
    EpReplay.parseStep (EpReplay.serializeStep step) = Except.ok step := by
  show (do
    let st ← EpReplay.parseAgentState (EpReplay.serializeAgentState step.state_snapshot)
    let di ← EpReplay.parseDecisionInput
      (EpReplay.serializeDecisionInput step.decision_input)
    let ps ← EpReplay.parseProposals
      (JValue.obj (step.proposals.map (fun kv => (kv.1, EpReplay.serializeProposal kv.2))))
    let sc ← EpReplay.parseScores
      (JValue.obj (step.scores.map (fun kv => (kv.1, EpReplay.serializeScore kv.2))))
    Except.ok (⟨st, di, ps, sc, step.chosen_intent⟩ : EpReplay.EpisodeStep)) =
      Except.ok step
  simp only [parseAgentState_serialize, parseDecisionInput_serialize,
    parseProposals_serialize, parseScores_serialize, except_bind_ok]

/-- C3: the serialization round-trip law holds: deserializing the
serialized form of any Episode returns a success carrying an Episode
field-wise equal to the original — every step's state snapshot, decision
input, proposals-by-provider mapping, scores-by-provider mapping and
chosen intent are reproduced identically, in order. -/
theorem serialize_deserialize_roundtrip (ep : EpReplay.Episode) :
    EpReplay.deserialize_episode (EpReplay.serialize_episode ep) = Except.ok ep := by
  show (mapExceptList EpReplay.parseStep
      (ep.steps.map EpReplay.serializeStep)).map EpReplay.Episode.mk = Except.ok ep
  rw [mapExceptList_map_ok (fun s _ => parseStep_serialize s)]
  rfl

theorem parseStep_required_fields (s : JValue) (b : EpReplay.EpisodeStep)
    (hb : EpReplay.parseStep s = Except.ok b) :
    EpReplay.stepRequiredFieldsPresent s = true := by
  cases s with
  | obj fs =>
    rcases h1 : lookupField fs "state_snapshot" with _ | v1
    · simp [EpReplay.parseStep, h1] at hb
    rcases h2 : lookupField fs "decision_input" with _ | v2
    · simp [EpReplay.parseStep, h1, h2] at hb
    rcases h3 : lookupField fs "proposals" with _ | v3
    · simp [EpReplay.parseStep, h1, h2, h3] at hb
    rcases h4 : lookupField fs "scores" with _ | v4
    · simp [EpReplay.parseStep, h1, h2, h3, h4] at hb
    rcases h5 : lookupField fs "chosen_intent" with _ | v5
    · simp [EpReplay.parseStep, h1, h2, h3, h4, h5] at hb
    simp [EpReplay.stepRequiredFieldsPresent, h1, h2, h3, h4, h5]
  | str s => simp [EpReplay.parseStep] at hb
  | rat q => simp [EpReplay.parseStep] at hb
  | bool b' => simp [EpReplay.parseStep] at hb
  | int n => simp [EpReplay.parseStep] at hb
  | arr l => simp [EpReplay.parseStep] at hb

theorem deserialize_ok_required_fields (doc : JValue) (ep : EpReplay.Episode)
    (h : EpReplay.deserialize_episode doc = Except.ok ep) :
    EpReplay.requiredFieldsPresent doc = true := by
  cases doc with
  | obj fs =>
    rcases hsteps : lookupField fs "steps" with _ | v
    · simp [EpReplay.deserialize_episode, hsteps] at h
    · cases v with
      | arr l =>
        simp only [EpReplay.deserialize_episode, hsteps] at h
        obtain ⟨ys, hys, _⟩ := exceptMap_ok h
        simp only [EpReplay.requiredFieldsPresent, hsteps, List.all_eq_true]
        intro s hs
        obtain ⟨b, hb⟩ := mapExceptList_ok_mem hys s hs
        exact parseStep_required_fields s b hb
      | str s => simp [EpReplay.deserialize_episode, hsteps] at h
      | rat q => simp [EpReplay.deserialize_episode, hsteps] at h
      | bool b' => simp [EpReplay.deserialize_episode, hsteps] at h
      | int n => simp [EpReplay.deserialize_episode, hsteps] at h
      | obj fs' => simp [EpReplay.deserialize_episode, hsteps] at h
  | str s => simp [EpReplay.deserialize_episode] at h
  | rat q => simp [EpReplay.deserialize_episode] at h
  | bool b' => simp [EpReplay.deserialize_episode] at h
  | int n => simp [EpReplay.deserialize_episode] at h
  | arr l => simp [EpReplay.deserialize_episode] at h

/-- C4 counterexample: deserialize_episode succeeds on a serialized
document whose single step has proposals keyed by "rule" but scores keyed
by "abort".  The claim says such a document must fail with a schema
error; instead the inconsistency is silently accepted and the differing
key sets are carried into the constructed Episode. -/
theorem deserialize_keyset_mismatch_counterexample :
    EpReplay.deserialize_episode EpReplay.mismatchedDoc =
      Except.ok EpReplay.mismatchedEpisode ∧
    EpReplay.mismatchedEpisode.steps.map
        (fun s => (s.proposals.map Prod.fst, s.scores.map Prod.fst)) =
      [(["rule"], ["abort"])] :=
  ⟨rfl, rfl⟩

/-- C4 (amended): deserialize_episode fails (a KeyError or TypeError
surfaces; nothing is defaulted) whenever a required field is absent — a
successful deserialization implies every required field was present — but
it performs no proposals/scores key-set consistency check: a document
whose step carries differing key sets deserializes successfully. -/
theorem deserialize_missing_fields_error :
    (∀ (doc : JValue) (ep : EpReplay.Episode),
      EpReplay.deserialize_episode doc = Except.ok ep →
      EpReplay.requiredFieldsPresent doc = true) ∧
    EpReplay.deserialize_episode EpReplay.mismatchedDoc =
      Except.ok EpReplay.mismatchedEpisode :=
  ⟨deserialize_ok_required_fields, rfl⟩

/-- Witness for C4 (amended) at a concrete document: a well-formed
document with no steps deserializes, so its required fields are all
present. -/
theorem deserialize_missing_fields_error_witness :
    EpReplay.requiredFieldsPresent (JValue.obj [("steps", JValue.arr [])]) = true :=
  deserialize_missing_fields_error.1 (JValue.obj [("steps", JValue.arr [])]) ⟨[]⟩ rfl
